import Mathlib

/-!
# ToDoListTask3: repository, service and configuration loading

A shallow embedding of `internal/domain/task.go`, `internal/repository/postgres.go`,
`internal/service/task_service.go` and `loadConfig` of `app.go`.

The PostgreSQL database behind `*sql.DB` is an explicit value of type `Database`
that every operation receives and returns.  Each SQL statement of the source is
given its PostgreSQL meaning on that value:

* a table may be absent (before `CREATE TABLE IF NOT EXISTS` ran); a statement
  on an absent table fails with `undefinedTable` and changes nothing;
* `id SERIAL PRIMARY KEY` is a 32-bit `integer` column fed by a sequence owned
  by the table (`nextVal`, starting at 1, as PostgreSQL 10 and later create it:
  `AS integer`, largest value 2147483647): an `INSERT` that names no `id` column
  takes the sequence's next value; once the largest value was issued the
  sequence fails with `sequenceLimitExceeded` and stays as it is; a row whose
  id is already present is rejected with `uniqueViolation`, and the value taken
  for it stays consumed;
* a Go `int` sent as the parameter of `WHERE id = $n` is read as an `integer`:
  outside the 32-bit range the statement fails with `numericValueOutOfRange`
  and changes nothing; `MAX(id) + 1` is 32-bit addition and fails the same way
  when it overflows;
* `QueryRow(..).Scan` on an empty result is `sql.ErrNoRows`.

Modelling conventions:

* the connection is live: no transport failure is modelled, so the only errors
  are the ones above;
* Go `int` is `Int`, and the service is written against the interface
  `domain.TaskRepository`, as in the source: `TaskService.CreateTask` and its
  siblings take any implementation, `CreateTask` and its siblings are the
  service the application builds over `PostgresRepository`;
* `time.Time` is an instant `Time := Nat`, stored exactly; every call of
  `time.Now()` is an explicit argument of the operation that makes it;
* a Go method that mutates its `*Task` argument returns the mutated task;
* rows are kept in insertion order, and `ORDER BY` is a stable sort of them.
-/

namespace ToDoList

/-! ## Domain (`internal/domain/task.go`) -/

/-- An instant, as read from `time.Now()` or stored in a `TIMESTAMP` column. -/
abbrev Time := Nat

/-- The `domain.Task` struct; `DueDate` is the nullable `*time.Time`. -/
structure Task where
  ID : Int
  Text : String
  Completed : Bool
  DueDate : Option Time
  Priority : String
  CreatedAt : Time
  UpdatedAt : Time
deriving DecidableEq, Repr

/-- The `domain.Settings` struct. -/
structure Settings where
  ID : Int
  DarkMode : Bool
deriving DecidableEq, Repr

/-! ## The database -/

/-- The errors a modelled database call can return. -/
inductive DBError where
  /-- The value `sql.ErrNoRows`. -/
  | ErrNoRows
  /-- PostgreSQL 42P01: the relation does not exist. -/
  | undefinedTable
  /-- PostgreSQL 23505: duplicate key on the primary key. -/
  | uniqueViolation
  /-- PostgreSQL 22003: a value is out of range for type `integer`. -/
  | numericValueOutOfRange
  /-- PostgreSQL 2200H: `nextval` reached the maximum value of the sequence. -/
  | sequenceLimitExceeded
deriving DecidableEq, Repr

/-- The `tasks` table: its rows and the next value of its `id` sequence. -/
structure TaskTable where
  rows : List Task
  nextVal : Int
deriving DecidableEq, Repr

/-- The `settings` table: its rows and the next value of its `id` sequence. -/
structure SettingsTable where
  rows : List Settings
  nextVal : Int
deriving DecidableEq, Repr

/-- The database behind the repository; `none` is a table that does not exist. -/
structure Database where
  tasks : Option TaskTable
  settings : Option SettingsTable
deriving DecidableEq, Repr

/-- A database with no tables. -/
def Database.empty : Database := { tasks := none, settings := none }

/-- The rows of the `tasks` table (none when the table is absent). -/
def Database.taskRows (db : Database) : List Task :=
  match db.tasks with
  | none => []
  | some tt => tt.rows

/-- The rows of the `settings` table (none when the table is absent). -/
def Database.settingsRows (db : Database) : List Settings :=
  match db.settings with
  | none => []
  | some st => st.rows

/-- The largest value of the SQL type `integer`, the type of a `SERIAL` column
and of its sequence. -/
def maxInt32 : Int := 2147483647

/-- The least value of the SQL type `integer`. -/
def minInt32 : Int := -2147483648

/-- Whether a Go `int` fits the SQL type `integer`. -/
def inInt32 (n : Int) : Bool := decide (minInt32 ≤ n) && decide (n ≤ maxInt32)

/-- A table as `CREATE TABLE` makes it: no rows, sequence at 1. -/
def TaskTable.fresh : TaskTable := { rows := [], nextVal := 1 }

/-- A table as `CREATE TABLE` makes it: no rows, sequence at 1. -/
def SettingsTable.fresh : SettingsTable := { rows := [], nextVal := 1 }

/-- The statement `INSERT INTO settings (dark_mode) VALUES (false) [RETURNING id, dark_mode]`:
the id is the sequence's next value, which is consumed whether or not the
primary key accepts the row; a sequence that has issued its largest value
fails. -/
def SettingsTable.insertDefault (st : SettingsTable) : Except DBError Settings × SettingsTable :=
  let row : Settings := { ID := st.nextVal, DarkMode := false }
  if maxInt32 < st.nextVal then
    (.error .sequenceLimitExceeded, st)
  else if st.rows.any (fun r => r.ID == row.ID) then
    (.error .uniqueViolation, { st with nextVal := st.nextVal + 1 })
  else
    (.ok row, { rows := st.rows ++ [row], nextVal := st.nextVal + 1 })

/-- The order of `ORDER BY created_at DESC`: `a` may precede `b`. -/
def createdAtDesc (a b : Task) : Prop := b.CreatedAt ≤ a.CreatedAt

instance : DecidableRel createdAtDesc := fun a b =>
  inferInstanceAs (Decidable (b.CreatedAt ≤ a.CreatedAt))

instance : IsTotal Task createdAtDesc := ⟨fun a b => Nat.le_total b.CreatedAt a.CreatedAt⟩

instance : IsTrans Task createdAtDesc := ⟨fun _ _ _ hab hbc => Nat.le_trans hbc hab⟩

/-- The order of `ORDER BY id`: `a` may precede `b`. -/
def idAsc (a b : Settings) : Prop := a.ID ≤ b.ID

instance : DecidableRel idAsc := fun a b =>
  inferInstanceAs (Decidable (a.ID ≤ b.ID))

/-- The aggregate `MAX(id)` over the rows: `none` (SQL NULL) on no rows. -/
def maxID : List Task → Option Int
  | [] => none
  | t :: ts =>
    match maxID ts with
    | none => some t.ID
    | some m => some (max t.ID m)

/-! ## Repository (`internal/repository/postgres.go`) -/

/-- The Go function `PostgresRepository.InitDB`: inside one transaction, create both tables if
absent, count the settings rows and insert the default row when there is none.
A failing statement returns its error and the deferred `tx.Rollback()` restores
the database the call began with. -/
def InitDB (db : Database) : Option DBError × Database :=
  -- CREATE TABLE IF NOT EXISTS tasks (...)
  let tt : TaskTable := match db.tasks with
    | some tt => tt
    | none => TaskTable.fresh
  -- CREATE TABLE IF NOT EXISTS settings (...)
  let st : SettingsTable := match db.settings with
    | some st => st
    | none => SettingsTable.fresh
  -- SELECT COUNT(*) FROM settings
  let count := st.rows.length
  if count == 0 then
    match st.insertDefault with
    | (.error e, _) => (some e, db)
    | (.ok _, st1) => (none, { tasks := some tt, settings := some st1 })
  else
    (none, { tasks := some tt, settings := some st })

/-- The Go function `PostgresRepository.Create`: stamps `CreatedAt` and `UpdatedAt` with `now`,
inserts every column but `id`, and scans the `RETURNING id` value into
`task.ID`.  The task's own `ID` is not part of the statement.  The insert
fails when the sequence has issued its largest value. -/
def Create (now : Time) (task : Task) (db : Database) : Option DBError × Task × Database :=
  let task := { task with CreatedAt := now, UpdatedAt := now }
  match db.tasks with
  | none => (some .undefinedTable, task, db)
  | some tt =>
    let id := tt.nextVal
    if maxInt32 < tt.nextVal then
      (some .sequenceLimitExceeded, task, db)
    else if tt.rows.any (fun r => r.ID == id) then
      (some .uniqueViolation, task, { db with tasks := some { tt with nextVal := tt.nextVal + 1 } })
    else
      let row : Task :=
        { ID := id, Text := task.Text, Completed := task.Completed, DueDate := task.DueDate,
          Priority := task.Priority, CreatedAt := task.CreatedAt, UpdatedAt := task.UpdatedAt }
      (none, { task with ID := id },
        { db with tasks := some { rows := tt.rows ++ [row], nextVal := tt.nextVal + 1 } })

/-- The Go function `PostgresRepository.Update`: stamps `UpdatedAt` with `now`, overwrites text,
completed, due date, priority and updated-at of the rows whose id is
`task.ID`, and returns `sql.ErrNoRows` when no row was affected.  `Exec`
fails when `task.ID` does not fit the `integer` column. -/
def Update (now : Time) (task : Task) (db : Database) : Option DBError × Task × Database :=
  let task := { task with UpdatedAt := now }
  match db.tasks with
  | none => (some .undefinedTable, task, db)
  | some tt =>
    if !inInt32 task.ID then (some .numericValueOutOfRange, task, db)
    else
      let rowsAffected := (tt.rows.filter (fun r => r.ID == task.ID)).length
      let rows := tt.rows.map (fun r =>
        if r.ID == task.ID then
          { r with Text := task.Text, Completed := task.Completed, DueDate := task.DueDate,
                   Priority := task.Priority, UpdatedAt := task.UpdatedAt }
        else r)
      let db1 := { db with tasks := some { tt with rows := rows } }
      if rowsAffected == 0 then (some .ErrNoRows, task, db1) else (none, task, db1)

/-- The Go function `PostgresRepository.Delete`: removes the rows whose id is `id` and returns
`sql.ErrNoRows` when no row was affected.  `Exec` fails when `id` does not fit
the `integer` column. -/
def Delete (id : Int) (db : Database) : Option DBError × Database :=
  match db.tasks with
  | none => (some .undefinedTable, db)
  | some tt =>
    if !inInt32 id then (some .numericValueOutOfRange, db)
    else
      let rowsAffected := (tt.rows.filter (fun r => r.ID == id)).length
      let db1 :=
        { db with tasks := some { tt with rows := tt.rows.filter (fun r => !(r.ID == id)) } }
      if rowsAffected == 0 then (some .ErrNoRows, db1) else (none, db1)

/-- The Go function `PostgresRepository.GetByID`: the first row whose id is `id`, or
`sql.ErrNoRows` from `Scan`.  The query fails when `id` does not fit the
`integer` column. -/
def GetByID (id : Int) (db : Database) : Except DBError Task × Database :=
  match db.tasks with
  | none => (.error .undefinedTable, db)
  | some tt =>
    if !inInt32 id then (.error .numericValueOutOfRange, db)
    else
      match tt.rows.find? (fun r => r.ID == id) with
      | none => (.error .ErrNoRows, db)
      | some task => (.ok task, db)

/-- The Go function `PostgresRepository.GetAll`: all rows, `ORDER BY created_at DESC`. -/
def GetAll (db : Database) : Except DBError (List Task) × Database :=
  match db.tasks with
  | none => (.error .undefinedTable, db)
  | some tt => (.ok (tt.rows.insertionSort createdAtDesc), db)

/-- The Go function `PostgresRepository.GetNextID`:
`SELECT COALESCE(MAX(id) + 1, 1) FROM tasks`.  The addition is 32-bit: it fails
when `MAX(id)` is the largest `integer`. -/
def GetNextID (db : Database) : Except DBError Int × Database :=
  match db.tasks with
  | none => (.error .undefinedTable, db)
  | some tt =>
    match maxID tt.rows with
    | none => (.ok 1, db)
    | some m =>
      if maxInt32 < m + 1 then (.error .numericValueOutOfRange, db)
      else (.ok (m + 1), db)

/-- The Go function `PostgresRepository.GetSettings`: the row with the least id
(`ORDER BY id LIMIT 1`); on `sql.ErrNoRows` the default row is inserted and
returned. -/
def GetSettings (db : Database) : Except DBError Settings × Database :=
  match db.settings with
  | none => (.error .undefinedTable, db)
  | some st =>
    match (st.rows.insertionSort idAsc).head? with
    | some settings => (.ok settings, db)
    | none =>
      match st.insertDefault with
      | (.error e, st1) => (.error e, { db with settings := some st1 })
      | (.ok settings, st1) => (.ok settings, { db with settings := some st1 })

/-- The Go function `PostgresRepository.UpdateSettings`: sets `dark_mode` of the rows whose id
is `settings.ID`; the number of affected rows is not inspected.  `Exec` fails
when `settings.ID` does not fit the `integer` column. -/
def UpdateSettings (settings : Settings) (db : Database) : Option DBError × Database :=
  match db.settings with
  | none => (some .undefinedTable, db)
  | some st =>
    if !inInt32 settings.ID then (some .numericValueOutOfRange, db)
    else
      let rows := st.rows.map (fun r =>
        if r.ID == settings.ID then { r with DarkMode := settings.DarkMode } else r)
      (none, { db with settings := some { st with rows := rows } })

/-! ## Service (`internal/service/task_service.go`) -/

/-- The interface `domain.TaskRepository`, over a store of type `σ`.  The
`Time` argument of `Create` and `Update` is the clock reading the
implementation makes. -/
structure TaskRepository (σ : Type) where
  Create : Time → Task → σ → Option DBError × Task × σ
  Update : Time → Task → σ → Option DBError × Task × σ
  Delete : Int → σ → Option DBError × σ
  GetByID : Int → σ → Except DBError Task × σ
  GetAll : σ → Except DBError (List Task) × σ
  GetNextID : σ → Except DBError Int × σ

/-- The type `PostgresRepository` as an implementation of `domain.TaskRepository`. -/
def PostgresRepository : TaskRepository Database :=
  { Create := Create, Update := Update, Delete := Delete, GetByID := GetByID,
    GetAll := GetAll, GetNextID := GetNextID }

/-- The Go function `TaskService.CreateTask`.  `tCreated` and `tUpdated` are the two `time.Now()`
readings of the struct literal, `now` the one made inside `repo.Create`. -/
def TaskService.CreateTask {σ : Type} (repo : TaskRepository σ) (tCreated tUpdated now : Time)
    (text : String) (dueDate : Option Time) (priority : String) (s : σ) :
    Except DBError Task × σ :=
  match repo.GetNextID s with
  | (.error err, s1) => (.error err, s1)
  | (.ok nextID, s1) =>
    let task : Task :=
      { ID := nextID, Text := text, Completed := false, DueDate := dueDate,
        Priority := priority, CreatedAt := tCreated, UpdatedAt := tUpdated }
    match repo.Create now task s1 with
    | (some err, _, s2) => (.error err, s2)
    | (none, task, s2) => (.ok task, s2)

/-- The Go function `TaskService.ToggleTask`.  `tService` is the `time.Now()` reading of the
service, `now` the one made inside `repo.Update`. -/
def TaskService.ToggleTask {σ : Type} (repo : TaskRepository σ) (tService now : Time) (id : Int)
    (s : σ) : Option DBError × σ :=
  match repo.GetByID id s with
  | (.error err, s1) => (some err, s1)
  | (.ok task, s1) =>
    let task := { task with Completed := !task.Completed }
    let task := { task with UpdatedAt := tService }
    let (err, _, s2) := repo.Update now task s1
    (err, s2)

/-- The Go function `TaskService.DeleteTask`. -/
def TaskService.DeleteTask {σ : Type} (repo : TaskRepository σ) (id : Int) (s : σ) :
    Option DBError × σ :=
  repo.Delete id s

/-- The Go function `TaskService.GetAllTasks`. -/
def TaskService.GetAllTasks {σ : Type} (repo : TaskRepository σ) (s : σ) :
    Except DBError (List Task) × σ :=
  repo.GetAll s

/-- The Go function `TaskService.UpdateTask`.  `tService` is the `time.Now()` reading of the
service, `now` the one made inside `repo.Update`. -/
def TaskService.UpdateTask {σ : Type} (repo : TaskRepository σ) (tService now : Time)
    (task : Task) (s : σ) : Option DBError × Task × σ :=
  let task := { task with UpdatedAt := tService }
  repo.Update now task s

/-- The method `CreateTask` of the service `NewTaskService(repo)` that `app.go`
builds over the PostgreSQL repository. -/
def CreateTask (tCreated tUpdated now : Time) (text : String) (dueDate : Option Time)
    (priority : String) (db : Database) : Except DBError Task × Database :=
  TaskService.CreateTask PostgresRepository tCreated tUpdated now text dueDate priority db

/-- The method `ToggleTask` of the service over the PostgreSQL repository. -/
def ToggleTask (tService now : Time) (id : Int) (db : Database) : Option DBError × Database :=
  TaskService.ToggleTask PostgresRepository tService now id db

/-- The method `DeleteTask` of the service over the PostgreSQL repository. -/
def DeleteTask (id : Int) (db : Database) : Option DBError × Database :=
  TaskService.DeleteTask PostgresRepository id db

/-- The method `GetAllTasks` of the service over the PostgreSQL repository. -/
def GetAllTasks (db : Database) : Except DBError (List Task) × Database :=
  TaskService.GetAllTasks PostgresRepository db

/-- The method `UpdateTask` of the service over the PostgreSQL repository. -/
def UpdateTask (tService now : Time) (task : Task) (db : Database) :
    Option DBError × Task × Database :=
  TaskService.UpdateTask PostgresRepository tService now task db

/-! ## Configuration (`app.go`) -/

/-- The `Config` struct (its nested `Database` section, flattened). -/
structure Config where
  Host : String
  Port : Int
  User : String
  Password : String
  DBName : String
deriving DecidableEq, Repr

/-- The two failures of `loadConfig`. -/
inductive ConfigError where
  /-- "error reading config file": neither file could be read. -/
  | reading
  /-- "error parsing config file": `json.Unmarshal` rejected the file read. -/
  | parsing
deriving DecidableEq, Repr

/-- The Go function `loadConfig`.  `primaryFile` and `exampleFile` are the outcomes of
`os.ReadFile("config.json")` and `os.ReadFile("config.example.json")` (`none`
when the read fails), `unmarshal` is `json.Unmarshal` into a `Config`.  The
`Config` value Go returns next to a non-nil error is dropped. -/
def loadConfig (unmarshal : String → Option Config) (primaryFile exampleFile : Option String) :
    Except ConfigError Config :=
  let file : Option String := match primaryFile with
    | some file => some file
    | none => exampleFile
  match file with
  | none => .error .reading
  | some file =>
    match unmarshal file with
    | none => .error .parsing
    | some config => .ok config

/-! ## Reachable databases -/

/-- The databases reachable from an empty database by a successful `InitDB`
followed by any sequence of service operations. -/
inductive ServiceReachable : Database → Prop where
  | bootstrap (db : Database) :
      InitDB Database.empty = (none, db) → ServiceReachable db
  | createTask (db : Database) (tCreated tUpdated now : Time) (text : String)
      (dueDate : Option Time) (priority : String) :
      ServiceReachable db →
      ServiceReachable (CreateTask tCreated tUpdated now text dueDate priority db).2
  | toggleTask (db : Database) (tService now : Time) (id : Int) :
      ServiceReachable db → ServiceReachable (ToggleTask tService now id db).2
  | updateTask (db : Database) (tService now : Time) (task : Task) :
      ServiceReachable db → ServiceReachable (UpdateTask tService now task db).2.2
  | deleteTask (db : Database) (id : Int) :
      ServiceReachable db → ServiceReachable (DeleteTask id db).2
  | getAllTasks (db : Database) :
      ServiceReachable db → ServiceReachable (GetAllTasks db).2

/-- The databases reachable from an empty database by a successful `InitDB`
followed by any sequence of repository operations. -/
inductive RepoReachable : Database → Prop where
  | bootstrap (db : Database) :
      InitDB Database.empty = (none, db) → RepoReachable db
  | initDB (db : Database) : RepoReachable db → RepoReachable (InitDB db).2
  | getSettings (db : Database) : RepoReachable db → RepoReachable (GetSettings db).2
  | updateSettings (db : Database) (settings : Settings) :
      RepoReachable db → RepoReachable (UpdateSettings settings db).2
  | create (db : Database) (now : Time) (task : Task) :
      RepoReachable db → RepoReachable (Create now task db).2.2
  | update (db : Database) (now : Time) (task : Task) :
      RepoReachable db → RepoReachable (Update now task db).2.2
  | delete (db : Database) (id : Int) : RepoReachable db → RepoReachable (Delete id db).2
  | getByID (db : Database) (id : Int) : RepoReachable db → RepoReachable (GetByID id db).2
  | getAll (db : Database) : RepoReachable db → RepoReachable (GetAll db).2
  | getNextID (db : Database) : RepoReachable db → RepoReachable (GetNextID db).2

/-- The task-table invariant of reachable databases: the table exists, its
sequence has not gone below 1, and every stored id was issued by the sequence
already. -/
def TaskInv (db : Database) : Prop :=
  ∃ tt, db.tasks = some tt ∧ 1 ≤ tt.nextVal ∧ ∀ r ∈ tt.rows, r.ID < tt.nextVal

/-- The settings-table invariant of reachable databases: the table holds
exactly one row, the one `InitDB` inserted with id 1. -/
def SettingsInv (db : Database) : Prop :=
  ∃ dark, db.settingsRows = [{ ID := 1, DarkMode := dark }]

/-! ## Sample data -/

/-- The database after `InitDB` on an empty database. -/
def bootDB : Database := (InitDB Database.empty).2

/-- The bootstrapped database after one `CreateTask`. -/
def dbAfterCreate : Database := (CreateTask 1 2 3 "Buy milk" none "low" bootDB).2

/-- The bootstrapped database after `UpdateSettings` set the dark mode and
`Create` inserted a task. -/
def sampleRepoDB : Database :=
  (Create 7 { ID := 0, Text := "Buy milk", Completed := false, DueDate := none,
              Priority := "low", CreatedAt := 0, UpdatedAt := 0 }
    (UpdateSettings { ID := 1, DarkMode := true } bootDB).2).2.2

/-- Three sample tasks, created at the instants 10, 20 and 30. -/
def taskA : Task :=
  { ID := 1, Text := "Buy milk", Completed := false, DueDate := none, Priority := "low",
    CreatedAt := 10, UpdatedAt := 10 }

/-- The second sample task. -/
def taskB : Task :=
  { ID := 2, Text := "Walk dog", Completed := true, DueDate := some 50, Priority := "high",
    CreatedAt := 20, UpdatedAt := 25 }

/-- The third sample task. -/
def taskC : Task :=
  { ID := 3, Text := "Pay rent", Completed := false, DueDate := none, Priority := "medium",
    CreatedAt := 30, UpdatedAt := 30 }

/-- A tasks table holding the three sample tasks, not in creation order. -/
def sampleTable : TaskTable := { rows := [taskB, taskA, taskC], nextVal := 4 }

/-- A task holding the largest identifier the sequence issues. -/
def taskLast : Task :=
  { ID := 2147483647, Text := "File taxes", Completed := false, DueDate := none,
    Priority := "high", CreatedAt := 40, UpdatedAt := 40 }

/-- A tasks table whose sequence has issued its largest value. -/
def fullTable : TaskTable := { rows := [taskA, taskLast], nextVal := 2147483648 }

/-- An identifier that fits a 64-bit Go `int` but not the `integer` column. -/
def bigID : Int := 1099511627776

/-- A sample `json.Unmarshal`: it accepts the file `"ok"` alone. -/
def sampleUnmarshal (file : String) : Option Config :=
  if file = "ok" then
    some { Host := "localhost", Port := 5432, User := "postgres", Password := "secret",
           DBName := "todo" }
  else none

/-! ## Auxiliary facts -/

theorem maxID_eq_none {l : List Task} (h : maxID l = none) : l = [] := by
  cases l with
  | nil => rfl
  | cons t ts =>
    simp only [maxID] at h
    split at h <;> simp at h

theorem maxID_isMax {l : List Task} {m : Int} (h : maxID l = some m) :
    (∃ r ∈ l, r.ID = m) ∧ ∀ r ∈ l, r.ID ≤ m := by
  induction l generalizing m with
  | nil => simp [maxID] at h
  | cons t ts ih =>
    simp only [maxID] at h
    split at h
    · rename_i hts
      have := maxID_eq_none hts
      subst this
      simp only [Option.some.injEq] at h
      subst h
      simp
    · rename_i m1 hts
      obtain ⟨⟨r, hr, hrm⟩, hle⟩ := ih hts
      simp only [Option.some.injEq] at h
      subst h
      refine ⟨?_, ?_⟩
      · rcases le_total t.ID m1 with hc | hc
        · exact ⟨r, List.mem_cons_of_mem _ hr, by rw [hrm, max_eq_right hc]⟩
        · exact ⟨t, List.mem_cons_self _ _, by rw [max_eq_left hc]⟩
      · intro x hx
        rcases List.mem_cons.mp hx with rfl | hx
        · exact le_max_left _ _
        · exact le_trans (hle x hx) (le_max_right _ _)

/-- The aggregate `MAX(id)` is the stored id that bounds every stored id. -/
theorem maxID_eq_of_isMax {l : List Task} {m : Int} (hmem : ∃ r ∈ l, r.ID = m)
    (hle : ∀ r ∈ l, r.ID ≤ m) : maxID l = some m := by
  cases h : maxID l with
  | none =>
    obtain ⟨r, hr, -⟩ := hmem
    rw [maxID_eq_none h] at hr
    exact absurd hr (List.not_mem_nil r)
  | some k =>
    obtain ⟨⟨x, hx, hxk⟩, hk⟩ := maxID_isMax h
    obtain ⟨r, hr, hrm⟩ := hmem
    have h1 := hle x hx
    have h2 := hk r hr
    congr 1
    omega

theorem no_match_iff (rows : List Task) (id : Int) :
    ((rows.filter (fun r => r.ID == id)).length == 0) = true ↔ ∀ r ∈ rows, r.ID ≠ id := by
  simp

theorem filter_other_of_no_match {rows : List Task} {id : Int} (h : ∀ r ∈ rows, r.ID ≠ id) :
    rows.filter (fun r => !(r.ID == id)) = rows := by
  rw [List.filter_eq_self]
  intro a ha
  simpa using h a ha

theorem find_none_of_no_match {rows : List Task} {id : Int} (h : ∀ r ∈ rows, r.ID ≠ id) :
    rows.find? (fun r => r.ID == id) = none := by
  rw [List.find?_eq_none]
  intro a ha
  simpa using h a ha

theorem GetNextID_snd (db : Database) : (GetNextID db).2 = db := by
  unfold GetNextID
  split
  · rfl
  · split
    · rfl
    · split <;> rfl

theorem GetByID_snd (id : Int) (db : Database) : (GetByID id db).2 = db := by
  unfold GetByID
  split
  · rfl
  · split
    · rfl
    · split <;> rfl

theorem GetAll_snd (db : Database) : (GetAll db).2 = db := by
  unfold GetAll
  split <;> rfl

theorem InitDB_empty :
    InitDB Database.empty =
      (none, { tasks := some { rows := [], nextVal := 1 },
               settings := some { rows := [{ ID := 1, DarkMode := false }], nextVal := 2 } }) := by
  decide

/-- What `GetNextID` returns when the tasks table exists. -/
theorem GetNextID_of_table {db : Database} {tt : TaskTable} (htt : db.tasks = some tt) :
    (tt.rows = [] → GetNextID db = (.ok 1, db)) ∧
    (∀ m : Int, (∃ r ∈ tt.rows, r.ID = m) → (∀ r ∈ tt.rows, r.ID ≤ m) →
      (m < maxInt32 → GetNextID db = (.ok (m + 1), db)) ∧
      (m = maxInt32 → GetNextID db = (.error .numericValueOutOfRange, db))) := by
  refine ⟨?_, ?_⟩
  · intro hnil
    simp [GetNextID, htt, hnil, maxID]
  · intro m hmem hle
    have hm := maxID_eq_of_isMax hmem hle
    refine ⟨?_, ?_⟩
    · intro hlt
      have : ¬ maxInt32 < m + 1 := by omega
      simp [GetNextID, htt, hm, this]
    · intro heq
      have : maxInt32 < m + 1 := by omega
      simp [GetNextID, htt, hm, this]

/-! ## The task-table invariant -/

theorem TaskInv_Create (now : Time) (task : Task) {db : Database} (h : TaskInv db) :
    TaskInv (Create now task db).2.2 := by
  obtain ⟨tt, htt, h1, hlt⟩ := h
  simp only [Create, htt]
  split
  · exact ⟨tt, htt, h1, hlt⟩
  · split
    · exact ⟨_, rfl, by simp; omega, fun r hr => by have := hlt r hr; simp; omega⟩
    · refine ⟨_, rfl, by simp; omega, fun r hr => ?_⟩
      simp only [List.mem_append, List.mem_singleton] at hr
      rcases hr with hr | rfl
      · have := hlt r hr; simp; omega
      · simp

theorem TaskInv_Update (now : Time) (task : Task) {db : Database} (h : TaskInv db) :
    TaskInv (Update now task db).2.2 := by
  have h0 := h
  obtain ⟨tt, htt, h1, hlt⟩ := h
  have key : TaskInv { db with tasks := some { tt with rows := tt.rows.map (fun r =>
      if r.ID == task.ID then
        { r with Text := task.Text, Completed := task.Completed, DueDate := task.DueDate,
                 Priority := task.Priority, UpdatedAt := now }
      else r) } } := by
    refine ⟨_, rfl, h1, fun r hr => ?_⟩
    simp only [List.mem_map] at hr
    obtain ⟨a, ha, rfl⟩ := hr
    have := hlt a ha
    split <;> simpa using this
  simp only [Update, htt]
  split
  · exact h0
  · split <;> exact key

theorem TaskInv_Delete (id : Int) {db : Database} (h : TaskInv db) :
    TaskInv (Delete id db).2 := by
  have h0 := h
  obtain ⟨tt, htt, h1, hlt⟩ := h
  have key : TaskInv
      { db with tasks := some { tt with rows := tt.rows.filter (fun r => !(r.ID == id)) } } :=
    ⟨_, rfl, h1, fun r hr => hlt r (List.mem_of_mem_filter hr)⟩
  simp only [Delete, htt]
  split
  · exact h0
  · split <;> exact key

theorem TaskInv_CreateTask (tCreated tUpdated now : Time) (text : String)
    (dueDate : Option Time) (priority : String) {db : Database} (h : TaskInv db) :
    TaskInv (CreateTask tCreated tUpdated now text dueDate priority db).2 := by
  simp only [CreateTask, TaskService.CreateTask, PostgresRepository]
  split
  · rename_i err db1 heq
    have := GetNextID_snd db
    rw [heq] at this
    simp only at this
    subst this
    exact h
  · rename_i nextID db1 heq
    have := GetNextID_snd db
    rw [heq] at this
    simp only at this
    subst this
    have hc := TaskInv_Create now
      { ID := nextID, Text := text, Completed := false, DueDate := dueDate,
        Priority := priority, CreatedAt := tCreated, UpdatedAt := tUpdated } h
    split
    · rename_i heq2; rw [heq2] at hc; exact hc
    · rename_i heq2; rw [heq2] at hc; exact hc

theorem TaskInv_ToggleTask (tService now : Time) (id : Int) {db : Database} (h : TaskInv db) :
    TaskInv (ToggleTask tService now id db).2 := by
  simp only [ToggleTask, TaskService.ToggleTask, PostgresRepository]
  split
  · rename_i err db1 heq
    have := GetByID_snd id db
    rw [heq] at this
    simp only at this
    subst this
    exact h
  · rename_i task db1 heq
    have := GetByID_snd id db
    rw [heq] at this
    simp only at this
    subst this
    exact TaskInv_Update now _ h

theorem TaskInv_service {db : Database} (h : ServiceReachable db) : TaskInv db := by
  induction h with
  | bootstrap db h0 =>
    rw [InitDB_empty] at h0
    simp only [Prod.mk.injEq, true_and] at h0
    subst h0
    exact ⟨_, rfl, le_refl _, fun r hr => by simp at hr⟩
  | createTask db tC tU now text due prio _ ih => exact TaskInv_CreateTask tC tU now text due prio ih
  | toggleTask db tS now id _ ih => exact TaskInv_ToggleTask tS now id ih
  | updateTask db tS now task _ ih => exact TaskInv_Update now _ ih
  | deleteTask db id _ ih => exact TaskInv_Delete id ih
  | getAllTasks db _ ih =>
    simp only [GetAllTasks, TaskService.GetAllTasks, PostgresRepository]
    rw [GetAll_snd]
    exact ih

/-- On a database that satisfies the task-table invariant `GetNextID` succeeds
as long as the sequence has a value left to issue. -/
theorem GetNextID_ok_of_TaskInv {db : Database} {tt : TaskTable} (htt : db.tasks = some tt)
    (hlt : ∀ r ∈ tt.rows, r.ID < tt.nextVal) (hseq : tt.nextVal ≤ maxInt32) :
    ∃ n, GetNextID db = (.ok n, db) := by
  cases hm : maxID tt.rows with
  | none => exact ⟨1, by simp [GetNextID, htt, hm]⟩
  | some m =>
    obtain ⟨⟨r, hr, hrm⟩, -⟩ := maxID_isMax hm
    have := hlt r hr
    have hno : ¬ maxInt32 < m + 1 := by omega
    exact ⟨m + 1, by simp [GetNextID, htt, hm, hno]⟩

/-- What `CreateTask` does on a database that satisfies the task-table
invariant while the sequence has a value left: `GetNextID` succeeds, the insert
succeeds, and the returned task and the appended row carry the sequence's next
value. -/
theorem CreateTask_of_TaskInv {db : Database} {tt : TaskTable} (htt : db.tasks = some tt)
    (hlt : ∀ r ∈ tt.rows, r.ID < tt.nextVal) (hseq : tt.nextVal ≤ maxInt32)
    (tCreated tUpdated now : Time) (text : String) (dueDate : Option Time) (priority : String) :
    CreateTask tCreated tUpdated now text dueDate priority db =
      (.ok { ID := tt.nextVal, Text := text, Completed := false, DueDate := dueDate,
             Priority := priority, CreatedAt := now, UpdatedAt := now },
       ⟨some ⟨tt.rows ++
          [{ ID := tt.nextVal, Text := text, Completed := false, DueDate := dueDate,
             Priority := priority, CreatedAt := now, UpdatedAt := now }], tt.nextVal + 1⟩,
        db.settings⟩) := by
  have hany : (tt.rows.any (fun r => r.ID == tt.nextVal)) = false := by
    rw [List.any_eq_false]
    intro r hr
    have := hlt r hr
    simp only [beq_iff_eq]
    omega
  have hno : ¬ maxInt32 < tt.nextVal := by omega
  obtain ⟨n, hn⟩ := GetNextID_ok_of_TaskInv htt hlt hseq
  simp [CreateTask, TaskService.CreateTask, PostgresRepository, hn, Create, htt, hany, hno]

/-- Once the sequence has issued its largest value `CreateTask` fails. -/
theorem CreateTask_of_exhausted {db : Database} {tt : TaskTable} (htt : db.tasks = some tt)
    (hseq : maxInt32 < tt.nextVal)
    (tCreated tUpdated now : Time) (text : String) (dueDate : Option Time) (priority : String) :
    ∃ err db1, CreateTask tCreated tUpdated now text dueDate priority db = (.error err, db1) := by
  simp only [CreateTask, TaskService.CreateTask, PostgresRepository]
  split
  · exact ⟨_, _, rfl⟩
  · rename_i nextID db1 heq
    have := GetNextID_snd db
    rw [heq] at this
    simp only at this
    subst this
    simp only [Create, htt, hseq, if_true]
    exact ⟨_, _, rfl⟩

/-- On a database that satisfies the task-table invariant `CreateTask` succeeds
exactly while the sequence has a value left to issue. -/
theorem CreateTask_ok_iff {db : Database} {tt : TaskTable} (htt : db.tasks = some tt)
    (hlt : ∀ r ∈ tt.rows, r.ID < tt.nextVal)
    (tCreated tUpdated now : Time) (text : String) (dueDate : Option Time) (priority : String) :
    (∃ task db1, CreateTask tCreated tUpdated now text dueDate priority db = (.ok task, db1)) ↔
      tt.nextVal ≤ maxInt32 := by
  constructor
  · rintro ⟨task, db1, hok⟩
    by_contra hcon
    obtain ⟨err, db2, herr⟩ := CreateTask_of_exhausted htt (not_le.mp hcon)
      tCreated tUpdated now text dueDate priority
    rw [hok] at herr
    simp at herr
  · intro hseq
    exact ⟨_, _, CreateTask_of_TaskInv htt hlt hseq tCreated tUpdated now text dueDate priority⟩

theorem bootDB_reachable : ServiceReachable bootDB :=
  ServiceReachable.bootstrap _ (by decide)

theorem dbAfterCreate_reachable : ServiceReachable dbAfterCreate :=
  ServiceReachable.createTask _ 1 2 3 "Buy milk" none "low" bootDB_reachable

/-- C1: on every database reachable from a bootstrapped empty one through the
service operations, a successful `CreateTask` returns a task whose identifier no
stored task held before the call, whose completed flag is false, and whose
text, due date and priority are the arguments, and the database afterwards
holds that task.  The call succeeds exactly while the id sequence of the tasks
table has a value left to issue. -/
theorem CreateTask_fresh_id (db : Database) (h : ServiceReachable db)
    (tCreated tUpdated now : Time) (text : String) (dueDate : Option Time) (priority : String) :
    (∀ task db1,
      CreateTask tCreated tUpdated now text dueDate priority db = (.ok task, db1) →
        (∀ r ∈ db.taskRows, r.ID ≠ task.ID) ∧
        task.Completed = false ∧ task.Text = text ∧ task.DueDate = dueDate ∧
        task.Priority = priority ∧ task ∈ db1.taskRows) ∧
    ((∃ task db1,
        CreateTask tCreated tUpdated now text dueDate priority db = (.ok task, db1)) ↔
      ∃ tt, db.tasks = some tt ∧ tt.nextVal ≤ maxInt32) := by
  obtain ⟨tt, htt, -, hlt⟩ := TaskInv_service h
  have hiff := CreateTask_ok_iff htt hlt tCreated tUpdated now text dueDate priority
  refine ⟨?_, ?_⟩
  · intro task db1 hok
    have hseq := hiff.mp ⟨task, db1, hok⟩
    rw [CreateTask_of_TaskInv htt hlt hseq] at hok
    simp only [Prod.mk.injEq, Except.ok.injEq] at hok
    obtain ⟨rfl, rfl⟩ := hok
    refine ⟨?_, rfl, rfl, rfl, rfl, ?_⟩
    · intro r hr
      simp only [Database.taskRows, htt] at hr
      have := hlt r hr
      simp only [ne_eq]
      omega
    · simp [Database.taskRows]
  · rw [hiff]
    constructor
    · intro hseq
      exact ⟨tt, htt, hseq⟩
    · rintro ⟨tt1, htt1, hseq⟩
      rw [htt] at htt1
      cases htt1
      exact hseq

/-- Witness of C1 on the database that holds one task: the call succeeds and
the task it returns is fresh and populated. -/
theorem CreateTask_fresh_id_witness :
    ServiceReachable dbAfterCreate ∧
    ∃ task db1, CreateTask 4 5 6 "Walk dog" (some 9) "high" dbAfterCreate = (.ok task, db1) ∧
      (∀ r ∈ dbAfterCreate.taskRows, r.ID ≠ task.ID) ∧
      task.Completed = false ∧ task.Text = "Walk dog" ∧ task.DueDate = some 9 ∧
      task.Priority = "high" ∧ task ∈ db1.taskRows := by
  have h := CreateTask_fresh_id dbAfterCreate dbAfterCreate_reachable 4 5 6 "Walk dog" (some 9)
    "high"
  obtain ⟨task, db1, hok⟩ := h.2.mpr ⟨_, rfl, by decide⟩
  exact ⟨dbAfterCreate_reachable, task, db1, hok, h.1 task db1 hok⟩

/-! ## C2: where the identifier of a created task comes from -/

theorem find_after_update {rows : List Task} {id : Int} {task : Task} (upd : Task → Task)
    (hupd : ∀ r, (upd r).ID = r.ID)
    (h : rows.find? (fun r => r.ID == id) = some task) :
    (rows.map (fun r => if r.ID == id then upd r else r)).find? (fun r => r.ID == id) =
      some (upd task) := by
  induction rows with
  | nil => simp at h
  | cons a as ih =>
    by_cases ha : a.ID = id
    · have hb : (a.ID == id) = true := by simpa using ha
      have hb1 : ((upd a).ID == id) = true := by rw [hupd]; exact hb
      simp only [List.find?_cons, hb, Option.some.injEq] at h
      subst h
      simp only [List.map_cons, hb, if_true, List.find?_cons, hb1]
    · have hb : (a.ID == id) = false := by simpa using ha
      simp only [List.find?_cons, hb] at h
      simp only [List.map_cons, hb, Bool.false_eq_true, if_false, List.find?_cons]
      exact ih h

/-- What `ToggleTask` does when the read step finds `task`: the update succeeds
and a later read finds the task with the flag negated and `UpdatedAt` at the
repository's clock reading. -/
theorem ToggleTask_of_found {db : Database} {id : Int} {task : Task}
    (h : GetByID id db = (.ok task, db)) (tService now : Time) :
    ∃ db1, ToggleTask tService now id db = (none, db1) ∧
      GetByID id db1 =
        (.ok { task with Completed := !task.Completed, UpdatedAt := now }, db1) := by
  cases htt : db.tasks with
  | none => simp [GetByID, htt] at h
  | some tt =>
    cases hrange : inInt32 id with
    | false => simp [GetByID, htt, hrange] at h
    | true =>
      cases hfind : tt.rows.find? (fun r => r.ID == id) with
      | none => simp [GetByID, htt, hrange, hfind] at h
      | some found =>
        have hfound : found = task := by simpa [GetByID, htt, hrange, hfind] using h
        subst hfound
        have hid : found.ID = id := by simpa using List.find?_some hfind
        have hmem : found ∈ tt.rows := List.mem_of_find?_eq_some hfind
        have haff : ((tt.rows.filter (fun r => r.ID == id)).length == 0) = false := by
          rw [Bool.eq_false_iff, ne_eq, no_match_iff]
          exact fun hall => hall found hmem hid
        have hread := find_after_update
          (fun r => { r with Text := found.Text, Completed := !found.Completed,
                             DueDate := found.DueDate, Priority := found.Priority,
                             UpdatedAt := now })
          (fun _ => rfl) hfind
        refine ⟨⟨some ⟨tt.rows.map (fun r => if r.ID == id then
            { r with Text := found.Text, Completed := !found.Completed,
                     DueDate := found.DueDate, Priority := found.Priority,
                     UpdatedAt := now } else r), tt.nextVal⟩, db.settings⟩, ?_, ?_⟩
        · simp only [ToggleTask, TaskService.ToggleTask, PostgresRepository, h, Update, htt,
            hid, hrange, haff]
          rfl
        · simp only [GetByID, hrange, hread]
          rfl

/-- C3: when `GetByID` finds `task` under identifier `id`, two successive
`ToggleTask` calls both succeed; a read after the first finds the completed flag
negated, a read after the second finds it back at its original value, and the
updated-at values read back are the repository's clock readings `t2` and `t4`.
Under a strictly increasing clock (the stored updated-at was read before the
first call, whose readings are `t1 < t2`, and the second call reads `t3 < t4`
after that) the two values are distinct and both later than the original. -/
theorem ToggleTask_twice (tt : TaskTable) (st : Option SettingsTable) (id : Int) (task : Task)
    (t1 t2 t3 t4 : Time)
    (hget : GetByID id ⟨some tt, st⟩ = (.ok task, ⟨some tt, st⟩)) :
    ∃ db1 db2 task1 task2,
      ToggleTask t1 t2 id ⟨some tt, st⟩ = (none, db1) ∧
      ToggleTask t3 t4 id db1 = (none, db2) ∧
      GetByID id db1 = (.ok task1, db1) ∧
      GetByID id db2 = (.ok task2, db2) ∧
      task1.Completed = (!task.Completed) ∧
      task2.Completed = task.Completed ∧
      task1.UpdatedAt = t2 ∧
      task2.UpdatedAt = t4 ∧
      (task.UpdatedAt < t1 ∧ t1 < t2 ∧ t2 < t3 ∧ t3 < t4 →
        task1.UpdatedAt ≠ task2.UpdatedAt ∧
        task.UpdatedAt < task1.UpdatedAt ∧
        task.UpdatedAt < task2.UpdatedAt) := by
  obtain ⟨db1, htog1, hget1⟩ := ToggleTask_of_found hget t1 t2
  obtain ⟨db2, htog2, hget2⟩ := ToggleTask_of_found hget1 t3 t4
  refine ⟨db1, db2, _, _, htog1, htog2, hget1, hget2, rfl, Bool.not_not _, rfl, rfl, ?_⟩
  rintro ⟨h01, h12, h23, h34⟩
  have h02 : task.UpdatedAt < t2 := lt_trans h01 h12
  have h24 : t2 < t4 := lt_trans h23 h34
  exact ⟨ne_of_lt h24, h02, lt_trans h02 h24⟩

/-- Witness of C3: toggling task 1 of the sample table twice, at the clock
readings 40 < 41 < 42 < 43, all later than its updated-at 10. -/
theorem ToggleTask_twice_witness :
    ∃ db1 db2 task1 task2,
      ToggleTask 40 41 1 ⟨some sampleTable, none⟩ = (none, db1) ∧
      ToggleTask 42 43 1 db1 = (none, db2) ∧
      GetByID 1 db1 = (.ok task1, db1) ∧
      GetByID 1 db2 = (.ok task2, db2) ∧
      task1.Completed = (!taskA.Completed) ∧
      task2.Completed = taskA.Completed ∧
      task1.UpdatedAt = 41 ∧
      task2.UpdatedAt = 43 ∧
      task1.UpdatedAt ≠ task2.UpdatedAt ∧
      taskA.UpdatedAt < task1.UpdatedAt ∧
      taskA.UpdatedAt < task2.UpdatedAt := by
  obtain ⟨db1, db2, task1, task2, h1, h2, h3, h4, h5, h6, h7, h8, h9⟩ :=
    ToggleTask_twice sampleTable none 1 taskA 40 41 42 43 rfl
  exact ⟨db1, db2, task1, task2, h1, h2, h3, h4, h5, h6, h7, h8, h9 (by decide)⟩

/-! ## C4: `DeleteTask` -/

/-- C4, counterexample: no task of the sample table has the identifier
`bigID`, yet `DeleteTask` does not fail with `sql.ErrNoRows`: the identifier
does not fit the `integer` column and `Exec` returns the out-of-range error. -/
theorem DeleteTask_out_of_range :
    (∀ r ∈ sampleTable.rows, r.ID ≠ bigID) ∧
    DeleteTask bigID ⟨some sampleTable, none⟩ =
      (some .numericValueOutOfRange, ⟨some sampleTable, none⟩) :=
  ⟨by decide, rfl⟩

/-- C4, amended: for an identifier `id` that fits the `integer` column,
`DeleteTask` returns `sql.ErrNoRows` exactly when no stored task has identifier
`id`, and then the database is unchanged; otherwise it succeeds, and
`GetAllTasks` afterwards succeeds with a list that has no task of identifier
`id` and is a rearrangement of the other stored tasks, each as it was.  For an
identifier that does not fit the column, `DeleteTask` fails with the
out-of-range error and the database is unchanged. -/
theorem DeleteTask_spec (tt : TaskTable) (st : Option SettingsTable) (id : Int) :
    (inInt32 id = true →
      ((DeleteTask id ⟨some tt, st⟩).1 = some .ErrNoRows ↔ ∀ r ∈ tt.rows, r.ID ≠ id) ∧
      ((∀ r ∈ tt.rows, r.ID ≠ id) → (DeleteTask id ⟨some tt, st⟩).2 = ⟨some tt, st⟩) ∧
      ((∃ r ∈ tt.rows, r.ID = id) →
        (DeleteTask id ⟨some tt, st⟩).1 = none ∧
        ∃ l, GetAllTasks (DeleteTask id ⟨some tt, st⟩).2 =
            (.ok l, (DeleteTask id ⟨some tt, st⟩).2) ∧
          (∀ r ∈ l, r.ID ≠ id) ∧
          (∀ r ∈ tt.rows, r.ID ≠ id → r ∈ l) ∧
          l.Perm (tt.rows.filter (fun r => decide (r.ID ≠ id))))) ∧
    (inInt32 id = false →
      DeleteTask id ⟨some tt, st⟩ = (some .numericValueOutOfRange, ⟨some tt, st⟩)) := by
  refine ⟨?_, ?_⟩
  · intro hrange
    have hdb : (DeleteTask id ⟨some tt, st⟩).2 =
        ⟨some ⟨tt.rows.filter (fun r => !(r.ID == id)), tt.nextVal⟩, st⟩ := by
      simp only [DeleteTask, TaskService.DeleteTask, PostgresRepository, Delete, hrange,
        Bool.not_true, Bool.false_eq_true, if_false]
      split <;> rfl
    have hfilter : tt.rows.filter (fun r => decide (r.ID ≠ id)) =
        tt.rows.filter (fun r => !(r.ID == id)) := by
      congr 1
      funext r
      by_cases h : r.ID = id <;> simp [h]
    have hcount := no_match_iff tt.rows id
    refine ⟨?_, ?_, ?_⟩
    · simp only [DeleteTask, TaskService.DeleteTask, PostgresRepository, Delete, hrange,
        Bool.not_true, Bool.false_eq_true, if_false]
      split
      · rename_i h0; simpa using hcount.mp h0
      · rename_i h0
        simp only [false_iff, reduceCtorEq]
        exact fun h => h0 (hcount.mpr h)
    · intro h
      rw [hdb, filter_other_of_no_match h]
    · rintro ⟨r, hr, hrid⟩
      refine ⟨?_, ?_⟩
      · simp only [DeleteTask, TaskService.DeleteTask, PostgresRepository, Delete, hrange,
        Bool.not_true, Bool.false_eq_true, if_false]
        split
        · rename_i h0; exact absurd hrid (hcount.mp h0 r hr)
        · rfl
      · rw [hdb]
        refine ⟨_, rfl, ?_, ?_, ?_⟩
        · intro x hx
          have hx1 := (List.perm_insertionSort createdAtDesc _).subset hx
          simpa using (List.mem_filter.mp hx1).2
        · intro x hx hne
          refine (List.perm_insertionSort createdAtDesc _).symm.subset ?_
          exact List.mem_filter.mpr ⟨hx, by simpa using hne⟩
        · rw [hfilter]
          exact List.perm_insertionSort createdAtDesc _
  · intro hrange
    simp [DeleteTask, TaskService.DeleteTask, PostgresRepository, Delete, hrange]

/-- Witness of the amended C4: deleting identifier 2 from the sample table. -/
theorem DeleteTask_spec_witness :
    (DeleteTask 2 ⟨some sampleTable, none⟩).1 = none ∧
      ∃ l, GetAllTasks (DeleteTask 2 ⟨some sampleTable, none⟩).2 =
          (.ok l, (DeleteTask 2 ⟨some sampleTable, none⟩).2) ∧
        (∀ r ∈ l, r.ID ≠ 2) ∧
        (∀ r ∈ sampleTable.rows, r.ID ≠ 2 → r ∈ l) ∧
        l.Perm (sampleTable.rows.filter (fun r => decide (r.ID ≠ 2))) :=
  ((DeleteTask_spec sampleTable none 2).1 (by decide)).2.2 ⟨taskB, by decide, rfl⟩

/-! ## C5: `GetAll` -/

theorem sorted_three_unique {l : List Task} {a b c : Task} (hp : l.Perm [a, b, c])
    (hs : l.Sorted createdAtDesc) (hab : a.CreatedAt < b.CreatedAt)
    (hbc : b.CreatedAt < c.CreatedAt) : l = [c, b, a] := by
  have hac : a.CreatedAt < c.CreatedAt := lt_trans hab hbc
  have hkeys : l.map Task.CreatedAt = [c.CreatedAt, b.CreatedAt, a.CreatedAt] := by
    refine List.eq_of_perm_of_sorted (r := fun x y : Nat => y ≤ x) ?_ ?_ ?_
    · exact (hp.map Task.CreatedAt).trans
        (List.reverse_perm [c.CreatedAt, b.CreatedAt, a.CreatedAt])
    · exact List.pairwise_map.mpr hs
    · refine List.Pairwise.cons ?_ (List.Pairwise.cons ?_ (List.Pairwise.cons ?_ List.Pairwise.nil))
      · intro t ht
        rcases List.mem_cons.mp ht with rfl | ht
        · exact le_of_lt hbc
        · rw [List.mem_singleton.mp ht]; exact le_of_lt hac
      · intro t ht
        rw [List.mem_singleton.mp ht]; exact le_of_lt hab
      · intro t ht
        exact absurd ht (List.not_mem_nil t)
  rcases l with _ | ⟨x, _ | ⟨y, _ | ⟨z, _ | ⟨w, l⟩⟩⟩⟩ <;>
    simp only [List.map_cons, List.map_nil, List.cons.injEq, and_true, reduceCtorEq,
      and_false] at hkeys
  obtain ⟨hx, hy, hz⟩ := hkeys
  have mem : ∀ t ∈ [x, y, z], t = a ∨ t = b ∨ t = c := fun t ht => by
    simpa using hp.subset ht
  have hx2 : x = c := by
    rcases mem x (by simp) with rfl | rfl | rfl
    · exact absurd hx (ne_of_lt hac)
    · exact absurd hx (ne_of_lt hbc)
    · rfl
  have hy2 : y = b := by
    rcases mem y (by simp) with rfl | rfl | rfl
    · exact absurd hy (ne_of_lt hab)
    · rfl
    · exact absurd hy (ne_of_gt hbc)
  have hz2 : z = a := by
    rcases mem z (by simp) with rfl | rfl | rfl
    · rfl
    · exact absurd hz (ne_of_gt hab)
    · exact absurd hz (ne_of_gt hac)
  rw [hx2, hy2, hz2]

/-- C5: on every task table `GetAll` succeeds and leaves the database as it
was; the list it returns holds exactly the stored tasks, each once, with no
task created later than one that precedes it (the empty table gives the empty
list); when the stored tasks are three tasks created at instants
`t1 < t2 < t3`, the list is the third, the second, the first. -/
theorem GetAll_spec (tt : TaskTable) (st : Option SettingsTable) :
    ∃ l, GetAll ⟨some tt, st⟩ = (.ok l, ⟨some tt, st⟩) ∧
      l.Perm tt.rows ∧
      l.Pairwise (fun earlier later => later.CreatedAt ≤ earlier.CreatedAt) ∧
      (tt.rows = [] → l = []) ∧
      (∀ a b c : Task, tt.rows.Perm [a, b, c] → a.CreatedAt < b.CreatedAt →
        b.CreatedAt < c.CreatedAt → l = [c, b, a]) := by
  refine ⟨tt.rows.insertionSort createdAtDesc, rfl, List.perm_insertionSort _ _,
    List.sorted_insertionSort createdAtDesc tt.rows, ?_, ?_⟩
  · intro h
    rw [h]
    rfl
  · intro a b c hp hab hbc
    exact sorted_three_unique ((List.perm_insertionSort _ _).trans hp)
      (List.sorted_insertionSort createdAtDesc tt.rows) hab hbc

/-- Witness of C5 on the sample table, whose tasks were created at 10, 20, 30. -/
theorem GetAll_spec_witness :
    GetAll ⟨some sampleTable, none⟩ = (.ok [taskC, taskB, taskA], ⟨some sampleTable, none⟩) := by
  obtain ⟨l, hl, -, -, -, h3⟩ := GetAll_spec sampleTable none
  rw [hl, h3 taskA taskB taskC (by decide) (by decide) (by decide)]

/-! ## C6: `GetNextID` -/

/-- C6, counterexample: the largest identifier stored in `fullTable` is
2147483647, and `GetNextID` does not return one more: the 32-bit addition
`MAX(id) + 1` fails with the out-of-range error. -/
theorem GetNextID_overflow :
    (∃ r ∈ fullTable.rows, r.ID = 2147483647) ∧
    (∀ r ∈ fullTable.rows, r.ID ≤ 2147483647) ∧
    GetNextID ⟨some fullTable, none⟩ =
      (.error .numericValueOutOfRange, ⟨some fullTable, none⟩) :=
  ⟨by decide, by decide, rfl⟩

/-- C6, amended: on every task table `GetNextID` leaves the database as it was;
it returns 1 when the table holds no task, one more than the maximum stored
identifier when that maximum is below the largest `integer` 2147483647, and the
out-of-range error when the maximum is 2147483647. -/
theorem GetNextID_spec (tt : TaskTable) (st : Option SettingsTable) :
    (tt.rows = [] → GetNextID ⟨some tt, st⟩ = (.ok 1, ⟨some tt, st⟩)) ∧
    (∀ m : Int, (∃ r ∈ tt.rows, r.ID = m) → (∀ r ∈ tt.rows, r.ID ≤ m) →
      (m < maxInt32 → GetNextID ⟨some tt, st⟩ = (.ok (m + 1), ⟨some tt, st⟩)) ∧
      (m = maxInt32 →
        GetNextID ⟨some tt, st⟩ = (.error .numericValueOutOfRange, ⟨some tt, st⟩))) :=
  GetNextID_of_table rfl

/-- Witness of the amended C6 on the sample table, whose maximum identifier is
3: the next identifier is 4. -/
theorem GetNextID_spec_witness :
    GetNextID ⟨some sampleTable, none⟩ = (.ok 4, ⟨some sampleTable, none⟩) :=
  ((GetNextID_spec sampleTable none).2 3 ⟨taskC, by decide, rfl⟩ (by decide)).1 (by decide)

/-! ## C7: `GetSettings` on a settings table with no row -/

/-- C8, counterexample: no task of the sample table has the identifier
`bigID`, yet `ToggleTask` does not fail with `sql.ErrNoRows`: the identifier
does not fit the `integer` column and the read step returns the out-of-range
error. -/
theorem ToggleTask_out_of_range :
    (∀ r ∈ sampleTable.rows, r.ID ≠ bigID) ∧
    ToggleTask 40 41 bigID ⟨some sampleTable, none⟩ =
      (some .numericValueOutOfRange, ⟨some sampleTable, none⟩) :=
  ⟨by decide, rfl⟩

/-- C8, amended: when no stored task has identifier `id` and `id` fits the
`integer` column, the read step `GetByID` fails with `sql.ErrNoRows` and
`ToggleTask` returns that error with the database exactly as it was; when `id`
does not fit the column, the read step fails with the out-of-range error and
`ToggleTask` returns that one, again with the database as it was.  No update is
attempted: over every implementation of the repository interface, whatever its
`Update` does, `TaskService.ToggleTask` returns the error of a failed read
together with the store the read left. -/
theorem ToggleTask_missing (tt : TaskTable) (st : Option SettingsTable) (id : Int)
    (tService now : Time) (h : ∀ r ∈ tt.rows, r.ID ≠ id) :
    (inInt32 id = true →
      GetByID id ⟨some tt, st⟩ = (.error .ErrNoRows, ⟨some tt, st⟩) ∧
      ToggleTask tService now id ⟨some tt, st⟩ = (some .ErrNoRows, ⟨some tt, st⟩)) ∧
    (inInt32 id = false →
      GetByID id ⟨some tt, st⟩ = (.error .numericValueOutOfRange, ⟨some tt, st⟩) ∧
      ToggleTask tService now id ⟨some tt, st⟩ =
        (some .numericValueOutOfRange, ⟨some tt, st⟩)) ∧
    (∀ (σ : Type) (repo : TaskRepository σ) (s s1 : σ) (err : DBError),
      repo.GetByID id s = (.error err, s1) →
      TaskService.ToggleTask repo tService now id s = (some err, s1)) := by
  refine ⟨?_, ?_, ?_⟩
  · intro hrange
    have hg : GetByID id ⟨some tt, st⟩ = (.error .ErrNoRows, ⟨some tt, st⟩) := by
      simp [GetByID, hrange, find_none_of_no_match h]
    exact ⟨hg, by simp [ToggleTask, TaskService.ToggleTask, PostgresRepository, hg]⟩
  · intro hrange
    have hg : GetByID id ⟨some tt, st⟩ = (.error .numericValueOutOfRange, ⟨some tt, st⟩) := by
      simp [GetByID, hrange]
    exact ⟨hg, by simp [ToggleTask, TaskService.ToggleTask, PostgresRepository, hg]⟩
  · intro σ repo s s1 err hread
    simp [TaskService.ToggleTask, hread]

/-- Witness of the amended C8: identifier 7 fits the column and is not in the
sample table. -/
theorem ToggleTask_missing_witness :
    GetByID 7 ⟨some sampleTable, none⟩ = (.error .ErrNoRows, ⟨some sampleTable, none⟩) ∧
      ToggleTask 40 41 7 ⟨some sampleTable, none⟩ = (some .ErrNoRows, ⟨some sampleTable, none⟩) :=
  (ToggleTask_missing sampleTable none 7 40 41 (by decide)).1 (by decide)

/-! ## C9: one settings row -/

theorem settings_of_rows {db : Database} {row : Settings} (h : db.settingsRows = [row]) :
    ∃ st, db.settings = some st ∧ st.rows = [row] := by
  unfold Database.settingsRows at h
  split at h
  · simp at h
  · exact ⟨_, by assumption, h⟩

theorem SettingsInv_InitDB {db : Database} (h : SettingsInv db) : SettingsInv (InitDB db).2 := by
  obtain ⟨dark, hrows⟩ := h
  obtain ⟨st, hst, hr⟩ := settings_of_rows hrows
  refine ⟨dark, ?_⟩
  simp [InitDB, hst, hr, Database.settingsRows]

theorem SettingsInv_GetSettings {db : Database} (h : SettingsInv db) :
    SettingsInv (GetSettings db).2 := by
  obtain ⟨dark, hrows⟩ := h
  obtain ⟨st, hst, hr⟩ := settings_of_rows hrows
  refine ⟨dark, ?_⟩
  simp [GetSettings, hst, hr, Database.settingsRows]

theorem SettingsInv_UpdateSettings (settings : Settings) {db : Database} (h : SettingsInv db) :
    SettingsInv (UpdateSettings settings db).2 := by
  have h0 := h
  obtain ⟨dark, hrows⟩ := h
  obtain ⟨st, hst, hr⟩ := settings_of_rows hrows
  simp only [UpdateSettings, hst, hr, List.map_cons, List.map_nil]
  split
  · exact h0
  · split
    · exact ⟨settings.DarkMode, by simp [Database.settingsRows]⟩
    · exact ⟨dark, by simp [Database.settingsRows]⟩

theorem Create_settings (now : Time) (task : Task) (db : Database) :
    (Create now task db).2.2.settings = db.settings := by
  unfold Create
  split
  · rfl
  · dsimp only
    split
    · rfl
    · split <;> rfl

theorem Update_settings (now : Time) (task : Task) (db : Database) :
    (Update now task db).2.2.settings = db.settings := by
  unfold Update
  split
  · rfl
  · dsimp only
    split
    · rfl
    · split <;> rfl

theorem Delete_settings (id : Int) (db : Database) :
    (Delete id db).2.settings = db.settings := by
  unfold Delete
  split
  · rfl
  · dsimp only
    split
    · rfl
    · split <;> rfl

theorem SettingsInv_of_settings_eq {db db1 : Database} (he : db1.settings = db.settings)
    (h : SettingsInv db) : SettingsInv db1 := by
  obtain ⟨dark, hrows⟩ := h
  exact ⟨dark, by simpa [Database.settingsRows, he] using hrows⟩

theorem SettingsInv_repo {db : Database} (h : RepoReachable db) : SettingsInv db := by
  induction h with
  | bootstrap db h0 =>
    rw [InitDB_empty] at h0
    simp only [Prod.mk.injEq, true_and] at h0
    subst h0
    exact ⟨false, rfl⟩
  | initDB db _ ih => exact SettingsInv_InitDB ih
  | getSettings db _ ih => exact SettingsInv_GetSettings ih
  | updateSettings db settings _ ih => exact SettingsInv_UpdateSettings settings ih
  | create db now task _ ih => exact SettingsInv_of_settings_eq (Create_settings now task db) ih
  | update db now task _ ih => exact SettingsInv_of_settings_eq (Update_settings now task db) ih
  | delete db id _ ih => exact SettingsInv_of_settings_eq (Delete_settings id db) ih
  | getByID db id _ ih => rw [GetByID_snd]; exact ih
  | getAll db _ ih => rw [GetAll_snd]; exact ih
  | getNextID db _ ih => rw [GetNextID_snd]; exact ih

theorem sampleRepoDB_reachable : RepoReachable sampleRepoDB :=
  RepoReachable.create _ 7 _
    (RepoReachable.updateSettings _ _ (RepoReachable.bootstrap bootDB (by decide)))

/-- C9: `InitDB` on an empty database succeeds and leaves the single settings
row with id 1 and dark-mode false; every database reachable from there by
repository operations (`InitDB` again, `GetSettings`, `UpdateSettings`,
`Create`, `Update`, `Delete`, `GetByID`, `GetAll`, `GetNextID`) has exactly one
settings row, still the one with id 1. -/
theorem one_settings_row (db : Database) (h : RepoReachable db) :
    (∃ db0, InitDB Database.empty = (none, db0) ∧
      db0.settingsRows = [{ ID := 1, DarkMode := false }]) ∧
    db.settingsRows.length = 1 ∧
    ∃ dark, db.settingsRows = [{ ID := 1, DarkMode := dark }] := by
  obtain ⟨dark, hd⟩ := SettingsInv_repo h
  exact ⟨⟨_, InitDB_empty, rfl⟩, by rw [hd]; rfl, dark, hd⟩

/-- Witness of C9 on the bootstrapped database after the dark mode was set and a
task was inserted. -/
theorem one_settings_row_witness :
    RepoReachable sampleRepoDB ∧
    (∃ db0, InitDB Database.empty = (none, db0) ∧
      db0.settingsRows = [{ ID := 1, DarkMode := false }]) ∧
    sampleRepoDB.settingsRows.length = 1 ∧
    ∃ dark, sampleRepoDB.settingsRows = [{ ID := 1, DarkMode := dark }] :=
  ⟨sampleRepoDB_reachable, one_settings_row sampleRepoDB sampleRepoDB_reachable⟩

/-! ## C10: `loadConfig` -/

/-- C10, counterexample: the primary file is present and does not parse, the
example file is present and parses, and `loadConfig` fails. -/
theorem loadConfig_no_fallback_on_parse_error :
    (∃ config, sampleUnmarshal "ok" = some config) ∧
    loadConfig sampleUnmarshal (some "garbage") (some "ok") = .error .parsing :=
  ⟨⟨_, rfl⟩, by simp [loadConfig, sampleUnmarshal]⟩

/-- C10, amended: `loadConfig` selects the primary file when it is present and
the example file otherwise, and parses the selected file alone.  It returns the
parsed configuration when the selected file parses, fails with the parse error
when the selected file does not parse (whatever the other file holds), and
fails with the read error when both files are absent. -/
theorem loadConfig_spec (unmarshal : String → Option Config)
    (primaryFile exampleFile : Option String) :
    (primaryFile = none →
      loadConfig unmarshal primaryFile exampleFile = loadConfig unmarshal exampleFile none) ∧
    (∀ file config, primaryFile = some file ∨ (primaryFile = none ∧ exampleFile = some file) →
      unmarshal file = some config →
      loadConfig unmarshal primaryFile exampleFile = .ok config) ∧
    (∀ file, primaryFile = some file ∨ (primaryFile = none ∧ exampleFile = some file) →
      unmarshal file = none →
      loadConfig unmarshal primaryFile exampleFile = .error .parsing) ∧
    (primaryFile = none → exampleFile = none →
      loadConfig unmarshal primaryFile exampleFile = .error .reading) := by
  refine ⟨?_, ?_, ?_, ?_⟩
  · rintro rfl
    cases exampleFile <;> rfl
  · rintro file config (rfl | ⟨rfl, rfl⟩) hu <;> simp [loadConfig, hu]
  · rintro file (rfl | ⟨rfl, rfl⟩) hu <;> simp [loadConfig, hu]
  · rintro rfl rfl
    rfl

/-- Witness of the amended C10: an absent primary file and an example file
that parses give the example file's configuration. -/
theorem loadConfig_spec_witness :
    loadConfig sampleUnmarshal none (some "ok") =
      .ok { Host := "localhost", Port := 5432, User := "postgres", Password := "secret",
            DBName := "todo" } :=
  (loadConfig_spec sampleUnmarshal none (some "ok")).2.1 "ok" _ (Or.inr ⟨rfl, rfl⟩) rfl

end ToDoList
